import Mathlib

/-!
# Verification of the scrutiny-client session-lifecycle engine

Shallow embedding of the session-lifecycle synchronization core of the
scrutiny-client repository:

* `normalizeSession` — `src/components/LobbyView.tsx` (SessionNormalizer)
* the candidate-probe loop of `tryFetchOnce` — `src/hooks/useSessionPoll.ts`
  (EndpointProbe / SessionPoller)
* the activation `useEffect` of `LobbyView` (LobbyActivationController)
* `markSubmitted` / `handleSessionStarted` — `src/components/StudentDashboard.tsx`
  (SubmissionDedupTracker and the activation gate)

JavaScript runtime values are modelled by the inductive type `Value`
(`undefined` is a first-class value, distinct from `null`, exactly as in JS).
Property access, `??`-coalescing, truthiness and template stringification are
defined to match the JS semantics on the values the code can actually see.
-/

/-- A JavaScript runtime value, as far as the client code observes it.
`vundef` is the `undefined` value (what a missing property access yields). -/
inductive Value where
  | vundef : Value
  | vnull : Value
  | vbool : Bool → Value
  | vnum : Int → Value
  | vstr : String → Value
  | vobj : List (String × Value) → Value
  | varr : List Value → Value

namespace Value

/-- First value stored under a key in an object's field list (JS objects
never hold duplicate keys, so first = only). -/
def findVal : List (String × Value) → String → Option Value
  | [], _ => none
  | (k', v) :: rest, k => if k' = k then some v else findVal rest k

/-- JS property read `o.k` (also the guarded `o?.k` on a non-nullish receiver):
looking a key up in an object, `undefined` when the key is missing or the
receiver is not an object.  (The client only dereferences non-nullish
receivers: plain accesses sit behind the `!raw` guard, the rest use `?.`,
so returning `vundef` for `vnull`/`vundef` receivers is exactly `?.`.) -/
def getField : Value → String → Value
  | vobj fields, k => (findVal fields k).getD vundef
  | _, _ => vundef

/-- JS nullish coalescing `a ?? b`. -/
def coalesce (a b : Value) : Value :=
  match a with
  | vundef => b
  | vnull => b
  | _ => a

/-- JS truthiness (`NaN` is not representable in this model; the client never
produces it on the paths verified here). -/
def truthy : Value → Bool
  | vundef => false
  | vnull => false
  | vbool b => b
  | vnum n => n ≠ 0
  | vstr s => s ≠ ""
  | vobj _ => true
  | varr _ => true

/-- JS `String(v)` / `.toString()` / template-literal stringification, on the
value shapes the client feeds to it. -/
def jsToString : Value → String
  | vundef => "undefined"
  | vnull => "null"
  | vbool true => "true"
  | vbool false => "false"
  | vnum n => toString n
  | vstr s => s
  | vobj _ => "[object Object]"
  | varr _ => "[array]"

/-- JS `obj[k] = v` on an association list: replace in place when the key is
present, append otherwise (JS objects keep the original slot of an
overridden key and append new keys in insertion order). -/
def setKey : List (String × Value) → String → Value → List (String × Value)
  | [], k, v => [(k, v)]
  | (k', v') :: rest, k, v =>
      if k' = k then (k, v) :: rest else (k', v') :: setKey rest k v

/-- JS spread-with-overrides `{...base, k₁: v₁, …, kₙ: vₙ}` applied to the
fields of `base`. -/
def objAssign (base : List (String × Value)) : List (String × Value) → List (String × Value)
  | [] => base
  | (k, v) :: rest => objAssign (setKey base k v) rest

/-- The own enumerable fields `{...v}` spreads.  Spreading a string would
enumerate its characters under index keys; the client never spreads a
string, so only objects contribute fields here. -/
def spreadFields : Value → List (String × Value)
  | vobj fields => fields
  | _ => []

end Value

open Value

/-! ## SessionNormalizer — `normalizeSession` of `src/components/LobbyView.tsx` -/

/-- Alias resolution of the session id (LobbyView.tsx line 19):
`raw.id ?? raw.sessionId ?? raw.session_id ?? raw.session?.id ?? null`. -/
def resolveId (raw : Value) : Value :=
  coalesce (raw.getField "id") (coalesce (raw.getField "sessionId")
    (coalesce (raw.getField "session_id")
      (coalesce ((raw.getField "session").getField "id") vnull)))

/-- Alias resolution of the quiz id (LobbyView.tsx lines 21–30):
`raw.quizId ?? raw.quiz_id ?? raw.quiz?.id ?? raw.quiz?.quizId ??
raw.quiz?.quiz_id ?? raw.quiz ?? raw.session?.quizId ?? raw.session?.quiz_id ?? null`. -/
def resolveQuizId (raw : Value) : Value :=
  coalesce (raw.getField "quizId") (coalesce (raw.getField "quiz_id")
    (coalesce ((raw.getField "quiz").getField "id")
      (coalesce ((raw.getField "quiz").getField "quizId")
        (coalesce ((raw.getField "quiz").getField "quiz_id")
          (coalesce (raw.getField "quiz")
            (coalesce ((raw.getField "session").getField "quizId")
              (coalesce ((raw.getField "session").getField "quiz_id") vnull)))))))

/-- Alias resolution of the participant list (LobbyView.tsx line 32):
`raw.participants ?? raw.users ?? raw.participantList ?? []`. -/
def resolveParticipants (raw : Value) : Value :=
  coalesce (raw.getField "participants") (coalesce (raw.getField "users")
    (coalesce (raw.getField "participantList") (varr [])))

/-- Alias resolution of the status (LobbyView.tsx line 34):
`(raw.status ?? raw.state ?? "").toString()`. -/
def resolveStatus (raw : Value) : Value :=
  vstr (jsToString (coalesce (raw.getField "status")
    (coalesce (raw.getField "state") (vstr ""))))

/-- Alias resolution of the start time (LobbyView.tsx lines 36–43). -/
def resolveStartsAt (raw : Value) : Value :=
  coalesce (raw.getField "startsAt") (coalesce (raw.getField "startTime")
    (coalesce (raw.getField "start_time") (coalesce (raw.getField "starts_at")
      (coalesce ((raw.getField "session").getField "startsAt")
        (coalesce ((raw.getField "session").getField "startTime") vnull)))))

/-- Alias resolution of the end time (LobbyView.tsx lines 44–51). -/
def resolveEndsAt (raw : Value) : Value :=
  coalesce (raw.getField "endsAt") (coalesce (raw.getField "endTime")
    (coalesce (raw.getField "end_time") (coalesce (raw.getField "ends_at")
      (coalesce ((raw.getField "session").getField "endsAt")
        (coalesce ((raw.getField "session").getField "endTime") vnull)))))

/-- Alias resolution of the pin (LobbyView.tsx line 53):
`raw.pin ?? raw.pinCode ?? raw.code ?? raw.session?.pin ?? null`. -/
def resolvePin (raw : Value) : Value :=
  coalesce (raw.getField "pin") (coalesce (raw.getField "pinCode")
    (coalesce (raw.getField "code")
      (coalesce ((raw.getField "session").getField "pin") vnull)))

/-- Shallow embedding of `normalizeSession` (LobbyView.tsx lines 16–65):

```js
if (!raw) return null;
const id = raw.id ?? raw.sessionId ?? raw.session_id ?? raw.session?.id ?? null;
... (the seven resolutions above) ...
return { ...raw, id, quizId, participants, status, startsAt, endsAt, pin };
```
`none` models the JS `null` return. -/
def normalizeSession (raw : Value) : Option Value :=
  if ¬ raw.truthy then none
  else
    some (vobj (objAssign raw.spreadFields
      [("id", resolveId raw), ("quizId", resolveQuizId raw),
       ("participants", resolveParticipants raw), ("status", resolveStatus raw),
       ("startsAt", resolveStartsAt raw), ("endsAt", resolveEndsAt raw),
       ("pin", resolvePin raw)]))

/-- The canonical seven-field projection of a normalized session — the
`Session` value of the specification's data model. -/
structure Session where
  id : Value
  quizId : Value
  participants : Value
  status : Value
  startsAt : Value
  endsAt : Value
  pin : Value

/-- Read the canonical fields back out of a (normalized) session object. -/
def projectSession (v : Value) : Session where
  id := v.getField "id"
  quizId := v.getField "quizId"
  participants := v.getField "participants"
  status := v.getField "status"
  startsAt := v.getField "startsAt"
  endsAt := v.getField "endsAt"
  pin := v.getField "pin"

/-! ## EndpointProbe / SessionPoller — `tryFetchOnce` of `src/hooks/useSessionPoll.ts`

One poll cycle is `async` JS: it suspends at each `await` and the effect
cleanup (`stop()`) may run between any two suspension points.  We model
logical time as a counter that advances by one at every `await`; the
cleanup that sets `abort = true` is modelled by an optional instant
`abortAt` — code running at clock `c` observes `abort = true` iff
`abortAt = some t` with `t ≤ c`.  The awaits of one cycle are: the
`supabase.auth.getSession()` call, then per candidate `fetch` (one tick)
and `resp.text()` (one tick); a network failure rejects at the `fetch`
await (one tick). -/

/-- What the network would answer for one candidate URL: a transport-level
failure (the `fetch` promise rejects), or a response with an HTTP status
and a body text. -/
inductive FetchOutcome where
  | netError : FetchOutcome
  | resp : Nat → String → FetchOutcome

/-- `resp.ok` of the Fetch API: status in the 2xx–3xx success range
(`200 ≤ status < 300` after redirects are followed; fetch reports `ok` for
`200..299`). -/
def respOk (status : Nat) : Bool := 200 ≤ status && status < 300

/-- The candidate-level failure record kept in `lastError`
(`{url, status, raw}` / `{url, status, parseErr}` / `{url, status, payload}`
/ the caught exception). -/
inductive ProbeErr where
  | httpErr : Nat → String → ProbeErr
  | parseFailure : Nat → ProbeErr
  | netErr : ProbeErr

/-- The mutable locals of the candidate loop of `tryFetchOnce`
(useSessionPoll.ts lines 69–70) plus the requested-candidate count and the
logical clock. -/
structure ProbeState where
  got : Value
  lastError : Option ProbeErr
  requested : Nat
  clock : Nat

/-- Whether the cancellation flag `abort` (set by the effect cleanup) is
visible at clock `c`. -/
def abortedAt (abortAt : Option Nat) (c : Nat) : Bool :=
  match abortAt with
  | some t => t ≤ c
  | none => false

/-- A whitespace character as JS `trim()` removes it (the client only ever
sees the ASCII ones). -/
def isJsSpace (c : Char) : Bool :=
  c = ' ' || c = '\t' || c = '\n' || c = '\r'

/-- The body text of a markup / fallback page: `text && text.trim().startsWith("<")`
(useSessionPoll.ts line 80) — a non-empty body whose first non-whitespace
character is the markup delimiter. -/
def looksLikeMarkup (text : String) : Bool :=
  text ≠ "" &&
    match text.toList.dropWhile isJsSpace with
    | c :: _ => c = '<'
    | [] => false

/-- The candidate loop of `tryFetchOnce` (useSessionPoll.ts lines 72–115),
parameterized by the host JSON parser `parse` (`JSON.parse`, `none` when it
throws).  Per candidate:

* `if (abort) break` at the loop head;
* `fetch` (one await) — a rejection is caught, recorded in `lastError`,
  and the loop continues;
* `resp.text()` (one await);
* a body that starts with `<` after trimming is recorded and skipped,
  success status or not;
* `json = text ? JSON.parse(text) : null`, a parse failure is recorded and
  skipped (both on success and non-success statuses);
* a non-success status with parsed body is recorded and skipped;
* otherwise `got = json ?? null; break`. -/
def probeLoop (parse : String → Option Value) (abortAt : Option Nat) :
    List FetchOutcome → ProbeState → ProbeState
  | [], st => st
  | c :: rest, st =>
    if abortedAt abortAt st.clock then st
    else
      match c with
      | .netError =>
          probeLoop parse abortAt rest
            { st with lastError := some .netErr,
                      requested := st.requested + 1, clock := st.clock + 1 }
      | .resp status text =>
          let st1 : ProbeState :=
            { st with requested := st.requested + 1, clock := st.clock + 2 }
          if looksLikeMarkup text then
            probeLoop parse abortAt rest
              { st1 with lastError := some (.httpErr status text) }
          else
            match (if text = "" then some vnull else parse text) with
            | none =>
                probeLoop parse abortAt rest
                  { st1 with lastError := some (.parseFailure status) }
            | some json =>
                if ¬ respOk status then
                  probeLoop parse abortAt rest
                    { st1 with lastError := some (.httpErr status text) }
                else
                  { st1 with got := coalesce json vnull }

/-- JS `got === null` — the post-loop test at useSessionPoll.ts line 119. -/
def Value.isNullValue : Value → Bool
  | vnull => true
  | _ => false

/-- The error message published on the aggregate failure
(`lastError ? String(lastError?.status ?? lastError) : "No session info"`,
useSessionPoll.ts line 121; stringifying the caught exception is modelled
by a fixed text). -/
def errMsg : Option ProbeErr → String
  | none => "No session info"
  | some (.httpErr status _) => toString status
  | some (.parseFailure status) => toString status
  | some .netErr => "TypeError: Failed to fetch"

/-- An externally visible state-setter call of one poll cycle. -/
inductive Emit where
  | eLoading : Bool → Emit
  | eError : Option String → Emit
  | eSession : Value → Emit

/-- One whole `tryFetchOnce` cycle (useSessionPoll.ts lines 41–131) as the
timestamped list of state-setter calls it performs:

* clock 0 (synchronous prologue): `setLoading(true); setError(null)`;
* one await for `supabase.auth.getSession()` (clock 0 → 1);
* the candidate loop;
* `if (abort) return` (line 117) — checked at the clock the last await
  resolved at — and only past that check the publication:
  `setError(...)`/`setLoading(false)` when `got === null`, else
  `setSession(got.session ?? got); setLoading(false)`. -/
def tryFetchOnceRun (parse : String → Option Value) (abortAt : Option Nat)
    (cands : List FetchOutcome) : List (Nat × Emit) :=
  let st := probeLoop parse abortAt cands
    { got := vnull, lastError := none, requested := 0, clock := 1 }
  [(0, .eLoading true), (0, .eError none)] ++
  (if abortedAt abortAt st.clock then []
   else if st.got.isNullValue then
     [(st.clock, .eError (some (errMsg st.lastError))),
      (st.clock, .eLoading false)]
   else
     [(st.clock, .eSession (coalesce (st.got.getField "session") st.got)),
      (st.clock, .eLoading false)])

/-- A publication to the poller's subscriber: `setSession` (the `onUpdate`
of the specification) or `setError` (its `onError`). -/
def Emit.isPublication : Emit → Bool
  | .eSession _ => true
  | .eError _ => true
  | .eLoading _ => false

/-- The pure probe over a candidate list when no stop occurs — the
EndpointProbe of the specification.  Evaluates the loop with the
cancellation flag never set, from a fresh state. -/
def probeResult (parse : String → Option Value) (cands : List FetchOutcome) :
    ProbeState :=
  probeLoop parse none cands { got := vnull, lastError := none, requested := 0, clock := 1 }

/-! ## LobbyActivationController — the activation `useEffect` of `LobbyView`

The activation side-effect of `LobbyView` (LobbyView.tsx lines 96–207) is a
`useEffect` with dependency array `[session?.status, apiBase]`.  React runs
the effect body after the first render and after every render whose
dependencies differ — compared entry-wise with `Object.is` — from the
previous render's; `apiBase` is constant for one mounted lobby.  The body
returns immediately unless `session` is truthy and the lower-cased
normalized status equals `"active"`; in that case its async block runs the
quiz-detail/status fetch chain and calls `onSessionStarted` exactly once
(every path of the block — token missing, status endpoint success, each
fallback success, exhaustion, caught error — ends in a single
`onSessionStarted` call). -/

/-- JS `toLowerCase()` on the ASCII strings the client compares (modelled
character-wise so that it computes). -/
def jsToLower (s : String) : String :=
  String.mk (s.toList.map Char.toLower)

/-- `Object.is` as React's dependency comparison sees it.  On primitives it
is value equality; two objects or arrays delivered by distinct poll ticks
are distinct references, so they compare unequal. -/
def objectIs : Value → Value → Bool
  | vundef, vundef => true
  | vnull, vnull => true
  | vbool a, vbool b => a == b
  | vnum a, vnum b => a == b
  | vstr a, vstr b => a == b
  | _, _ => false

/-- The effect's dependency `session?.status`. -/
def statusDep (session : Value) : Value := session.getField "status"

/-- Whether one run of the effect body reaches the activation side-effect:
`if (!session) return;` then
`((session.status ?? session.state ?? "").toString().toLowerCase()) === "active"`
(LobbyView.tsx lines 97–100). -/
def effectFiresActivation (session : Value) : Bool :=
  session.truthy &&
    jsToLower (jsToString (coalesce (session.getField "status")
      (coalesce (session.getField "state") (vstr "")))) == "active"

/-- Activation side-effects over a sequence of session states delivered by
the poller, one Bool per delivered update: `true` when that update fired
the activation fetch.  `prevDep` is the dependency value of the previous
render; the lobby mounts with `session = null`, whose first render always
runs the (vacuous) effect body, so the fold starts from
`statusDep vnull`. -/
def activationFires (prevDep : Value) : List Value → List Bool
  | [] => []
  | u :: rest =>
      let d := statusDep u
      (if objectIs d prevDep then false else effectFiresActivation u)
        :: activationFires d rest

/-- The activation side-effects of a freshly mounted lobby fed the given
update sequence. -/
def activationRun (updates : List Value) : List Bool :=
  activationFires (statusDep vnull) updates

/-! ## SubmissionDedupTracker and the activation gate —
`src/components/StudentDashboard.tsx`

The dedup set `submittedRef.current` is a JS `Set<string>`: membership
plus insertion order, modelled as a duplicate-free list in insertion
order.  `localStorage` writes serialize `Array.from(set)`, i.e. exactly
that list. -/

/-- JS `set.add(k)`: no-op when present, append otherwise. -/
def addKey (st : List String) (k : String) : List String :=
  if k ∈ st then st else st ++ [k]

/-- One guarded insertion of `markSubmitted`: `if (x) set.add(pre + x)` —
a JS optional-string parameter is truthy when present and non-empty. -/
def addIfTruthy (st : List String) (pre : String) : Option String → List String
  | some s => if s ≠ "" then addKey st (pre ++ s) else st
  | none => st

/-- `markSubmitted` (StudentDashboard.tsx lines 74–82):

```js
if (sId) submittedRef.current.add(`s:${sId}`);
if (qId) submittedRef.current.add(`q:${qId}`);
localStorage.setItem("submittedItems", JSON.stringify(Array.from(submittedRef.current)));
```
returns the updated set; the `localStorage` write persists exactly the
returned list. -/
def markSubmitted (st : List String) (sId qId : Option String) : List String :=
  addIfTruthy (addIfTruthy st "s:" sId) "q:" qId

/-- Loading the persisted dedup set on mount (StudentDashboard.tsx lines
63–72): `new Set(JSON.parse(saved))` — the stored array in order, first
occurrence kept. -/
def loadFromStore (stored : List String) : List String :=
  stored.foldl addKey []

/-- One tracker operation after the initial load: `markSubmitted` or a
`has` lookup (which reads and never writes). -/
inductive TrackerOp where
  | addOp : Option String → Option String → TrackerOp
  | hasOp : String → TrackerOp

/-- Run one tracker operation. -/
def runOp (st : List String) : TrackerOp → List String
  | .addOp s q => markSubmitted st s q
  | .hasOp _ => st

/-- Run a sequence of tracker operations. -/
def runOps (st : List String) (ops : List TrackerOp) : List String :=
  ops.foldl runOp st

/-- The successive serializations written to `localStorage`: one full
serialization of the set after every `markSubmitted`. -/
def persistedWrites (st : List String) : List TrackerOp → List (List String)
  | [] => []
  | .addOp s q :: rest =>
      let st' := markSubmitted st s q
      st' :: persistedWrites st' rest
  | .hasOp _ :: rest => persistedWrites st rest

/-- The quiz id the activation gate resolves
(StudentDashboard.tsx line 159):
`joinedQuizId ?? sessionNormalized?.quizId ?? sessionNormalized?.session?.quizId ?? null`.
`joined` models the `joinedQuizId` React state (`string | null`). -/
def quizIdToUse (joined : Option String) (s : Value) : Value :=
  match joined with
  | some j => vstr j
  | none => coalesce (s.getField "quizId")
      (coalesce ((s.getField "session").getField "quizId") vnull)

/-- The session id the activation gate extracts
(StudentDashboard.tsx line 160): `sessionNormalized?.id ?? sessionNormalized?.sessionId`. -/
def sessionIdOf (s : Value) : Value :=
  coalesce (s.getField "id") (s.getField "sessionId")

/-- How one `handleSessionStarted` call ends, up to the point where the
quiz-detail fetch is or is not issued. -/
inductive HandleOutcome where
  | ignoredSubmittedSession : HandleOutcome
  | ignoredSubmittedQuiz : HandleOutcome
  | quizNotReady : HandleOutcome
  | noAuthToken : HandleOutcome
  | fetchQuizDetail : Value → HandleOutcome

/-- Whether the outcome issues the GET `/api/quizzes/{quizIdToUse}` probe. -/
def HandleOutcome.issuesFetch : HandleOutcome → Bool
  | .fetchQuizDetail _ => true
  | _ => false

/-- `handleSessionStarted` (StudentDashboard.tsx lines 156–218) up to the
quiz-detail fetch decision:

```js
const quizIdToUse = joinedQuizId ?? sessionNormalized?.quizId ?? sessionNormalized?.session?.quizId ?? null;
const sId = sessionNormalized?.id ?? sessionNormalized?.sessionId;
if (sId) { if (submittedRef.current.has(`s:${sId}`)) return; }
if (quizIdToUse) { if (submittedRef.current.has(`q:${quizIdToUse}`)) return; }
if (!quizIdToUse) { setError("Quiz details not available yet — please wait for teacher."); return; }
...token lookup; if none, setError and return...
const resp = await fetch(`${apiBase}/api/quizzes/${encodeURIComponent(quizIdToUse)}`, ...);
```
`accessToken` abstracts the credential lookup. -/
def handleSessionStarted (submitted : List String) (joined : Option String)
    (accessToken : Option String) (s : Value) : HandleOutcome :=
  let q := quizIdToUse joined s
  let sId := sessionIdOf s
  if sId.truthy ∧ ("s:" ++ jsToString sId) ∈ submitted then
    .ignoredSubmittedSession
  else if q.truthy ∧ ("q:" ++ jsToString q) ∈ submitted then
    .ignoredSubmittedQuiz
  else if ¬ q.truthy then .quizNotReady
  else
    match accessToken with
    | none => .noAuthToken
    | some _ => .fetchQuizDetail q

/-! ## Alias combinations for the alias-invariance property

A raw payload "presents" a logical session when each present field is
carried by exactly one of the aliases `normalizeSession` supports.
`buildRaw` constructs such a payload from a choice of alias per field;
fields whose logical value is absent contribute no key at all. -/

/-- The supported carriers of the session id. -/
inductive IdAlias where
  | topId : IdAlias
  | topSessionId : IdAlias
  | topSnakeId : IdAlias
  | nestedId : IdAlias

/-- The supported carriers of the quiz id. -/
inductive QuizAlias where
  | topQuizId : QuizAlias
  | topSnakeQuizId : QuizAlias
  | objId : QuizAlias
  | objQuizId : QuizAlias
  | objSnakeQuizId : QuizAlias
  | bareQuiz : QuizAlias
  | nestedQuizId : QuizAlias
  | nestedSnakeQuizId : QuizAlias

/-- The supported carriers of the participant list. -/
inductive PartsAlias where
  | participants : PartsAlias
  | users : PartsAlias
  | participantList : PartsAlias

/-- The supported carriers of the status. -/
inductive StatusAlias where
  | statusKey : StatusAlias
  | stateKey : StatusAlias

/-- The supported carriers of a start/end time (the same six-way shape for
both). -/
inductive TimeAlias where
  | camel : TimeAlias
  | shortTime : TimeAlias
  | snakeTime : TimeAlias
  | snakeAt : TimeAlias
  | nestedCamel : TimeAlias
  | nestedShortTime : TimeAlias

/-- The supported carriers of the pin. -/
inductive PinAlias where
  | pinKey : PinAlias
  | pinCode : PinAlias
  | codeKey : PinAlias
  | nestedPin : PinAlias

/-- One alias choice per logical field. -/
structure AliasChoice where
  idA : IdAlias
  quizA : QuizAlias
  partsA : PartsAlias
  statusA : StatusAlias
  startsA : TimeAlias
  endsA : TimeAlias
  pinA : PinAlias

/-- The logical content of a session, independently of payload shape.
`none` means the field is absent from the payload. -/
structure LogicalSession where
  sid : Option String
  quiz : Option String
  parts : Option (List Value)
  status : Option String
  starts : Option String
  ends : Option String
  pin : Option String

/-- Top-level entries carrying the session id. -/
def segIdTop (a : IdAlias) (v : Option String) : List (String × Value) :=
  match a, v with
  | .topId, some s => [("id", vstr s)]
  | .topSessionId, some s => [("sessionId", vstr s)]
  | .topSnakeId, some s => [("session_id", vstr s)]
  | _, _ => []

/-- Entry carrying the session id inside the nested `session` object. -/
def segIdNested (a : IdAlias) (v : Option String) : List (String × Value) :=
  match a, v with
  | .nestedId, some s => [("id", vstr s)]
  | _, _ => []

/-- Top-level entries carrying the quiz id. -/
def segQuizTop (a : QuizAlias) (v : Option String) : List (String × Value) :=
  match a, v with
  | .topQuizId, some q => [("quizId", vstr q)]
  | .topSnakeQuizId, some q => [("quiz_id", vstr q)]
  | .objId, some q => [("quiz", vobj [("id", vstr q)])]
  | .objQuizId, some q => [("quiz", vobj [("quizId", vstr q)])]
  | .objSnakeQuizId, some q => [("quiz", vobj [("quiz_id", vstr q)])]
  | .bareQuiz, some q => [("quiz", vstr q)]
  | _, _ => []

/-- Entries carrying the quiz id inside the nested `session` object. -/
def segQuizNested (a : QuizAlias) (v : Option String) : List (String × Value) :=
  match a, v with
  | .nestedQuizId, some q => [("quizId", vstr q)]
  | .nestedSnakeQuizId, some q => [("quiz_id", vstr q)]
  | _, _ => []

/-- Entries carrying the participant list. -/
def segParts (a : PartsAlias) (v : Option (List Value)) : List (String × Value) :=
  match a, v with
  | .participants, some l => [("participants", varr l)]
  | .users, some l => [("users", varr l)]
  | .participantList, some l => [("participantList", varr l)]
  | _, _ => []

/-- Entries carrying the status. -/
def segStatus (a : StatusAlias) (v : Option String) : List (String × Value) :=
  match a, v with
  | .statusKey, some s => [("status", vstr s)]
  | .stateKey, some s => [("state", vstr s)]
  | _, _ => []

/-- Top-level entries carrying a time field, parameterized by the four
top-level key spellings. -/
def segTimeTop (kCamel kShort kSnake kSnakeAt : String) (a : TimeAlias)
    (v : Option String) : List (String × Value) :=
  match a, v with
  | .camel, some t => [(kCamel, vstr t)]
  | .shortTime, some t => [(kShort, vstr t)]
  | .snakeTime, some t => [(kSnake, vstr t)]
  | .snakeAt, some t => [(kSnakeAt, vstr t)]
  | _, _ => []

/-- Entries carrying a time field inside the nested `session` object. -/
def segTimeNested (kCamel kShort : String) (a : TimeAlias)
    (v : Option String) : List (String × Value) :=
  match a, v with
  | .nestedCamel, some t => [(kCamel, vstr t)]
  | .nestedShortTime, some t => [(kShort, vstr t)]
  | _, _ => []

/-- Top-level entries carrying the pin. -/
def segPinTop (a : PinAlias) (v : Option String) : List (String × Value) :=
  match a, v with
  | .pinKey, some p => [("pin", vstr p)]
  | .pinCode, some p => [("pinCode", vstr p)]
  | .codeKey, some p => [("code", vstr p)]
  | _, _ => []

/-- Entry carrying the pin inside the nested `session` object. -/
def segPinNested (a : PinAlias) (v : Option String) : List (String × Value) :=
  match a, v with
  | .nestedPin, some p => [("pin", vstr p)]
  | _, _ => []

/-- The fields of the nested `session` object for a given alias choice. -/
def sessionFields (c : AliasChoice) (L : LogicalSession) : List (String × Value) :=
  segIdNested c.idA L.sid ++ segQuizNested c.quizA L.quiz ++
  segTimeNested "startsAt" "startTime" c.startsA L.starts ++
  segTimeNested "endsAt" "endTime" c.endsA L.ends ++
  segPinNested c.pinA L.pin

/-- The `session` entry itself, present only when some field is carried
nested. -/
def sessionSeg (c : AliasChoice) (L : LogicalSession) : List (String × Value) :=
  match sessionFields c L with
  | [] => []
  | fs => [("session", vobj fs)]

/-- The raw payload presenting logical session `L` under alias choice `c`. -/
def buildRaw (c : AliasChoice) (L : LogicalSession) : Value :=
  vobj (segIdTop c.idA L.sid ++ segQuizTop c.quizA L.quiz ++
    segParts c.partsA L.parts ++ segStatus c.statusA L.status ++
    segTimeTop "startsAt" "startTime" "start_time" "starts_at" c.startsA L.starts ++
    segTimeTop "endsAt" "endTime" "end_time" "ends_at" c.endsA L.ends ++
    segPinTop c.pinA L.pin ++ sessionSeg c L)

/-- A present logical field normalizes to its string value, an absent one
to `null`. -/
def optValOrNull : Option String → Value
  | some s => vstr s
  | none => vnull

/-- The canonical `Session` the specification assigns to a logical session. -/
def canonicalOf (L : LogicalSession) : Session where
  id := optValOrNull L.sid
  quizId := optValOrNull L.quiz
  participants := match L.parts with
    | some l => varr l
    | none => varr []
  status := vstr (L.status.getD "")
  startsAt := optValOrNull L.starts
  endsAt := optValOrNull L.ends
  pin := optValOrNull L.pin

/-! ## Association-list lemmas -/

theorem findVal_append (l1 l2 : List (String × Value)) (k : String) :
    findVal (l1 ++ l2) k = (findVal l1 k).or (findVal l2 k) := by
  induction l1 with
  | nil => simp [findVal]
  | cons p rest ih =>
      obtain ⟨k', v⟩ := p
      by_cases h : k' = k <;> simp [findVal, h, ih]

theorem findVal_setKey_self (fs : List (String × Value)) (k : String) (v : Value) :
    findVal (setKey fs k v) k = some v := by
  induction fs with
  | nil => simp [setKey, findVal]
  | cons p rest ih =>
      obtain ⟨k', v'⟩ := p
      by_cases h : k' = k <;> simp [setKey, h, findVal, ih]

theorem findVal_setKey_ne (fs : List (String × Value)) (k k' : String) (v : Value)
    (h : k ≠ k') : findVal (setKey fs k v) k' = findVal fs k' := by
  induction fs with
  | nil => simp [setKey, findVal, h]
  | cons p rest ih =>
      obtain ⟨k1, v1⟩ := p
      by_cases h1 : k1 = k
      · subst h1
        simp [setKey, findVal, h]
      · simp [setKey, h1, findVal, ih]

theorem findVal_eq_none_of_not_mem (fs : List (String × Value)) (k : String)
    (h : k ∉ fs.map Prod.fst) : findVal fs k = none := by
  induction fs with
  | nil => rfl
  | cons p rest ih =>
      obtain ⟨k1, v1⟩ := p
      simp only [List.map_cons, List.mem_cons] at h
      push_neg at h
      simp [findVal, Ne.symm h.1, ih h.2]

theorem findVal_objAssign (ups fs : List (String × Value)) (k : String)
    (h : (ups.map Prod.fst).Nodup) :
    findVal (objAssign fs ups) k = (findVal ups k).or (findVal fs k) := by
  induction ups generalizing fs with
  | nil => simp [objAssign, findVal]
  | cons p rest ih =>
      obtain ⟨k1, v1⟩ := p
      simp only [List.map_cons, List.nodup_cons] at h
      by_cases hk : k1 = k
      · subst hk
        rw [objAssign, ih _ h.2, findVal_eq_none_of_not_mem _ _ h.1]
        simp [findVal, findVal_setKey_self]
      · rw [objAssign, ih _ h.2, findVal_setKey_ne _ _ _ _ hk]
        simp [findVal, hk]

/-- The canonical projection of a normalized truthy payload is exactly the
seven alias resolutions, whatever surplus fields the payload carries. -/
theorem projectSession_normalize (raw : Value) (h : raw.truthy = true) :
    (normalizeSession raw).map projectSession =
      some { id := resolveId raw, quizId := resolveQuizId raw,
             participants := resolveParticipants raw, status := resolveStatus raw,
             startsAt := resolveStartsAt raw, endsAt := resolveEndsAt raw,
             pin := resolvePin raw } := by
  have hrw : ∀ (fs : List (String × Value)) (k : String),
      findVal (objAssign fs
        [("id", resolveId raw), ("quizId", resolveQuizId raw),
         ("participants", resolveParticipants raw), ("status", resolveStatus raw),
         ("startsAt", resolveStartsAt raw), ("endsAt", resolveEndsAt raw),
         ("pin", resolvePin raw)]) k =
      (findVal [("id", resolveId raw), ("quizId", resolveQuizId raw),
         ("participants", resolveParticipants raw), ("status", resolveStatus raw),
         ("startsAt", resolveStartsAt raw), ("endsAt", resolveEndsAt raw),
         ("pin", resolvePin raw)] k).or (findVal fs k) :=
    fun fs k => findVal_objAssign _ fs k (by simp)
  unfold normalizeSession
  rw [if_neg (by simp [h])]
  simp [projectSession, getField, hrw, findVal]

/-! ## Lookup facts about the built payloads -/

theorem segIdTop_findVal (a : IdAlias) (v : Option String) (k : String)
    (h1 : k ≠ "id") (h2 : k ≠ "sessionId") (h3 : k ≠ "session_id") :
    findVal (segIdTop a v) k = none := by
  cases a <;> cases v <;>
    simp [segIdTop, findVal, Ne.symm h1, Ne.symm h2, Ne.symm h3]

theorem segIdNested_findVal (a : IdAlias) (v : Option String) (k : String)
    (h1 : k ≠ "id") : findVal (segIdNested a v) k = none := by
  cases a <;> cases v <;> simp [segIdNested, findVal, Ne.symm h1]

theorem segQuizTop_findVal (a : QuizAlias) (v : Option String) (k : String)
    (h1 : k ≠ "quizId") (h2 : k ≠ "quiz_id") (h3 : k ≠ "quiz") :
    findVal (segQuizTop a v) k = none := by
  cases a <;> cases v <;>
    simp [segQuizTop, findVal, Ne.symm h1, Ne.symm h2, Ne.symm h3]

theorem segQuizNested_findVal (a : QuizAlias) (v : Option String) (k : String)
    (h1 : k ≠ "quizId") (h2 : k ≠ "quiz_id") :
    findVal (segQuizNested a v) k = none := by
  cases a <;> cases v <;> simp [segQuizNested, findVal, Ne.symm h1, Ne.symm h2]

theorem segParts_findVal (a : PartsAlias) (v : Option (List Value)) (k : String)
    (h1 : k ≠ "participants") (h2 : k ≠ "users") (h3 : k ≠ "participantList") :
    findVal (segParts a v) k = none := by
  cases a <;> cases v <;>
    simp [segParts, findVal, Ne.symm h1, Ne.symm h2, Ne.symm h3]

theorem segStatus_findVal (a : StatusAlias) (v : Option String) (k : String)
    (h1 : k ≠ "status") (h2 : k ≠ "state") :
    findVal (segStatus a v) k = none := by
  cases a <;> cases v <;> simp [segStatus, findVal, Ne.symm h1, Ne.symm h2]

theorem segTimeTop_findVal (k1 k2 k3 k4 : String) (a : TimeAlias)
    (v : Option String) (k : String) (h1 : k ≠ k1) (h2 : k ≠ k2) (h3 : k ≠ k3)
    (h4 : k ≠ k4) : findVal (segTimeTop k1 k2 k3 k4 a v) k = none := by
  cases a <;> cases v <;>
    simp [segTimeTop, findVal, Ne.symm h1, Ne.symm h2, Ne.symm h3, Ne.symm h4]

theorem segTimeNested_findVal (k1 k2 : String) (a : TimeAlias) (v : Option String)
    (k : String) (h1 : k ≠ k1) (h2 : k ≠ k2) :
    findVal (segTimeNested k1 k2 a v) k = none := by
  cases a <;> cases v <;> simp [segTimeNested, findVal, Ne.symm h1, Ne.symm h2]

theorem segPinTop_findVal (a : PinAlias) (v : Option String) (k : String)
    (h1 : k ≠ "pin") (h2 : k ≠ "pinCode") (h3 : k ≠ "code") :
    findVal (segPinTop a v) k = none := by
  cases a <;> cases v <;>
    simp [segPinTop, findVal, Ne.symm h1, Ne.symm h2, Ne.symm h3]

theorem segPinNested_findVal (a : PinAlias) (v : Option String) (k : String)
    (h1 : k ≠ "pin") : findVal (segPinNested a v) k = none := by
  cases a <;> cases v <;> simp [segPinNested, findVal, Ne.symm h1]

theorem sessionSeg_findVal (c : AliasChoice) (L : LogicalSession) (k : String)
    (h : k ≠ "session") : findVal (sessionSeg c L) k = none := by
  unfold sessionSeg
  cases sessionFields c L <;> simp [findVal, Ne.symm h]

/-- An object when its field list is non-empty, `undefined` otherwise — the
value a `session` lookup produces on a built payload. -/
def vobjOpt : List (String × Value) → Value
  | [] => vundef
  | fs => vobj fs

theorem findVal_sessionSeg_self (c : AliasChoice) (L : LogicalSession) :
    (findVal (sessionSeg c L) "session").getD vundef = vobjOpt (sessionFields c L) := by
  unfold sessionSeg vobjOpt
  cases sessionFields c L <;> simp [findVal]

theorem getField_vobjOpt (fs : List (String × Value)) (k : String) :
    (vobjOpt fs).getField k = (findVal fs k).getD vundef := by
  unfold vobjOpt
  cases fs <;> simp [getField, findVal]

theorem getField_vobj (fs : List (String × Value)) (k : String) :
    (vobj fs).getField k = (findVal fs k).getD vundef := rfl

theorem coalesce_vundef (b : Value) : coalesce vundef b = b := rfl

theorem coalesce_vnull (b : Value) : coalesce vnull b = b := rfl

theorem coalesce_vstr (s : String) (b : Value) : coalesce (vstr s) b = vstr s := rfl

theorem coalesce_vobj (fs : List (String × Value)) (b : Value) :
    coalesce (vobj fs) b = vobj fs := rfl

theorem coalesce_varr (l : List Value) (b : Value) :
    coalesce (varr l) b = varr l := rfl

theorem resolveId_buildRaw (c : AliasChoice) (L : LogicalSession) :
    resolveId (buildRaw c L) = optValOrNull L.sid := by
  cases hA : c.idA <;> cases hS : L.sid <;>
    simp [resolveId, buildRaw, getField_vobj, findVal_append, hA, hS,
      segIdTop, segIdNested, sessionFields, optValOrNull,
      coalesce_vundef, coalesce_vnull, coalesce_vstr, coalesce_vobj, coalesce_varr,
      findVal_sessionSeg_self, getField_vobjOpt, findVal,
      segQuizTop_findVal, segQuizNested_findVal, segParts_findVal,
      segStatus_findVal, segTimeTop_findVal, segTimeNested_findVal,
      segPinTop_findVal, segPinNested_findVal, sessionSeg_findVal]

theorem getField_vundef (k : String) : getField vundef k = vundef := rfl

theorem getField_vstr (s : String) (k : String) : getField (vstr s) k = vundef := rfl

theorem resolveQuizId_buildRaw (c : AliasChoice) (L : LogicalSession) :
    resolveQuizId (buildRaw c L) = optValOrNull L.quiz := by
  cases hA : c.quizA <;> cases hS : L.quiz <;>
    simp [resolveQuizId, buildRaw, getField_vobj, findVal_append, hA, hS,
      segQuizTop, segQuizNested, sessionFields, optValOrNull,
      coalesce_vundef, coalesce_vnull, coalesce_vstr, coalesce_vobj, coalesce_varr,
      getField_vundef, getField_vstr,
      findVal_sessionSeg_self, getField_vobjOpt, findVal,
      segIdTop_findVal, segIdNested_findVal, segParts_findVal,
      segStatus_findVal, segTimeTop_findVal, segTimeNested_findVal,
      segPinTop_findVal, segPinNested_findVal, sessionSeg_findVal]

theorem resolveParticipants_buildRaw (c : AliasChoice) (L : LogicalSession) :
    resolveParticipants (buildRaw c L) =
      (match L.parts with
       | some l => varr l
       | none => varr []) := by
  cases hA : c.partsA <;> cases hS : L.parts <;>
    simp [resolveParticipants, buildRaw, getField_vobj, findVal_append, hA, hS,
      segParts,
      coalesce_vundef, coalesce_vnull, coalesce_vstr, coalesce_vobj, coalesce_varr,
      findVal,
      segIdTop_findVal, segQuizTop_findVal, segStatus_findVal,
      segTimeTop_findVal, segPinTop_findVal, sessionSeg_findVal]

theorem resolveStatus_buildRaw (c : AliasChoice) (L : LogicalSession) :
    resolveStatus (buildRaw c L) = vstr (L.status.getD "") := by
  cases hA : c.statusA <;> cases hS : L.status <;>
    simp [resolveStatus, buildRaw, getField_vobj, findVal_append, hA, hS,
      segStatus, jsToString,
      coalesce_vundef, coalesce_vnull, coalesce_vstr, coalesce_vobj, coalesce_varr,
      findVal,
      segIdTop_findVal, segQuizTop_findVal, segParts_findVal,
      segTimeTop_findVal, segPinTop_findVal, sessionSeg_findVal]

theorem segTimeTop_absent (k1 k2 k3 k4 : String) (a : TimeAlias) :
    segTimeTop k1 k2 k3 k4 a none = [] := by cases a <;> rfl

theorem segTimeTop_camel (k1 k2 k3 k4 t : String) :
    segTimeTop k1 k2 k3 k4 .camel (some t) = [(k1, vstr t)] := rfl

theorem segTimeTop_shortTime (k1 k2 k3 k4 t : String) :
    segTimeTop k1 k2 k3 k4 .shortTime (some t) = [(k2, vstr t)] := rfl

theorem segTimeTop_snakeTime (k1 k2 k3 k4 t : String) :
    segTimeTop k1 k2 k3 k4 .snakeTime (some t) = [(k3, vstr t)] := rfl

theorem segTimeTop_snakeAt (k1 k2 k3 k4 t : String) :
    segTimeTop k1 k2 k3 k4 .snakeAt (some t) = [(k4, vstr t)] := rfl

theorem segTimeTop_nestedCamel (k1 k2 k3 k4 t : String) :
    segTimeTop k1 k2 k3 k4 .nestedCamel (some t) = [] := rfl

theorem segTimeTop_nestedShortTime (k1 k2 k3 k4 t : String) :
    segTimeTop k1 k2 k3 k4 .nestedShortTime (some t) = [] := rfl

theorem segTimeNested_absent (k1 k2 : String) (a : TimeAlias) :
    segTimeNested k1 k2 a none = [] := by cases a <;> rfl

theorem segTimeNested_camel (k1 k2 t : String) :
    segTimeNested k1 k2 .camel (some t) = [] := rfl

theorem segTimeNested_shortTime (k1 k2 t : String) :
    segTimeNested k1 k2 .shortTime (some t) = [] := rfl

theorem segTimeNested_snakeTime (k1 k2 t : String) :
    segTimeNested k1 k2 .snakeTime (some t) = [] := rfl

theorem segTimeNested_snakeAt (k1 k2 t : String) :
    segTimeNested k1 k2 .snakeAt (some t) = [] := rfl

theorem segTimeNested_nestedCamel (k1 k2 t : String) :
    segTimeNested k1 k2 .nestedCamel (some t) = [(k1, vstr t)] := rfl

theorem segTimeNested_nestedShortTime (k1 k2 t : String) :
    segTimeNested k1 k2 .nestedShortTime (some t) = [(k2, vstr t)] := rfl

theorem resolveStartsAt_buildRaw (c : AliasChoice) (L : LogicalSession) :
    resolveStartsAt (buildRaw c L) = optValOrNull L.starts := by
  cases hA : c.startsA <;> cases hS : L.starts <;>
    simp [resolveStartsAt, buildRaw, getField_vobj, findVal_append, hA, hS,
      segTimeTop_absent, segTimeTop_camel, segTimeTop_shortTime,
      segTimeTop_snakeTime, segTimeTop_snakeAt, segTimeTop_nestedCamel,
      segTimeTop_nestedShortTime, segTimeNested_absent, segTimeNested_camel,
      segTimeNested_shortTime, segTimeNested_snakeTime, segTimeNested_snakeAt,
      segTimeNested_nestedCamel, segTimeNested_nestedShortTime, sessionFields, optValOrNull,
      coalesce_vundef, coalesce_vnull, coalesce_vstr, coalesce_vobj, coalesce_varr,
      getField_vundef, getField_vstr,
      findVal_sessionSeg_self, getField_vobjOpt, findVal,
      segIdTop_findVal, segIdNested_findVal, segQuizTop_findVal,
      segQuizNested_findVal, segParts_findVal, segStatus_findVal,
      segTimeTop_findVal, segTimeNested_findVal,
      segPinTop_findVal, segPinNested_findVal, sessionSeg_findVal]

theorem resolveEndsAt_buildRaw (c : AliasChoice) (L : LogicalSession) :
    resolveEndsAt (buildRaw c L) = optValOrNull L.ends := by
  cases hA : c.endsA <;> cases hS : L.ends <;>
    simp [resolveEndsAt, buildRaw, getField_vobj, findVal_append, hA, hS,
      segTimeTop_absent, segTimeTop_camel, segTimeTop_shortTime,
      segTimeTop_snakeTime, segTimeTop_snakeAt, segTimeTop_nestedCamel,
      segTimeTop_nestedShortTime, segTimeNested_absent, segTimeNested_camel,
      segTimeNested_shortTime, segTimeNested_snakeTime, segTimeNested_snakeAt,
      segTimeNested_nestedCamel, segTimeNested_nestedShortTime, sessionFields, optValOrNull,
      coalesce_vundef, coalesce_vnull, coalesce_vstr, coalesce_vobj, coalesce_varr,
      getField_vundef, getField_vstr,
      findVal_sessionSeg_self, getField_vobjOpt, findVal,
      segIdTop_findVal, segIdNested_findVal, segQuizTop_findVal,
      segQuizNested_findVal, segParts_findVal, segStatus_findVal,
      segTimeTop_findVal, segTimeNested_findVal,
      segPinTop_findVal, segPinNested_findVal, sessionSeg_findVal]

theorem resolvePin_buildRaw (c : AliasChoice) (L : LogicalSession) :
    resolvePin (buildRaw c L) = optValOrNull L.pin := by
  cases hA : c.pinA <;> cases hS : L.pin <;>
    simp [resolvePin, buildRaw, getField_vobj, findVal_append, hA, hS,
      segPinTop, segPinNested, sessionFields, optValOrNull,
      coalesce_vundef, coalesce_vnull, coalesce_vstr, coalesce_vobj, coalesce_varr,
      getField_vundef, getField_vstr,
      findVal_sessionSeg_self, getField_vobjOpt, findVal,
      segIdTop_findVal, segIdNested_findVal, segQuizTop_findVal,
      segQuizNested_findVal, segParts_findVal, segStatus_findVal,
      segTimeTop_findVal, segTimeNested_findVal, sessionSeg_findVal]

/-- Normalizing a payload built under any alias choice yields the canonical
session of its logical content. -/
theorem normalize_buildRaw_canonical (c : AliasChoice) (L : LogicalSession) :
    (normalizeSession (buildRaw c L)).map projectSession = some (canonicalOf L) := by
  rw [projectSession_normalize (buildRaw c L) rfl]
  rw [resolveId_buildRaw, resolveQuizId_buildRaw, resolveParticipants_buildRaw,
    resolveStatus_buildRaw, resolveStartsAt_buildRaw, resolveEndsAt_buildRaw,
    resolvePin_buildRaw]
  rfl

/-! ## Helper lemmas for the probe, the tracker and the gate -/

theorem mem_addKey_self (st : List String) (k : String) : k ∈ addKey st k := by
  unfold addKey
  by_cases h : k ∈ st <;> simp [h]

theorem mem_addKey_of_mem (st : List String) (k k' : String) (h : k ∈ st) :
    k ∈ addKey st k' := by
  unfold addKey
  by_cases h' : k' ∈ st <;> simp [h, h']

theorem mem_addIfTruthy_of_mem (st : List String) (pre : String)
    (o : Option String) (k : String) (h : k ∈ st) : k ∈ addIfTruthy st pre o := by
  cases o with
  | none => exact h
  | some s =>
      by_cases hs : s ≠ ""
      · simp [addIfTruthy, hs, mem_addKey_of_mem, h]
      · simp only [ne_eq, not_not] at hs
        simp [addIfTruthy, hs, h]

theorem mem_markSubmitted_of_mem (st : List String) (sId qId : Option String)
    (k : String) (h : k ∈ st) : k ∈ markSubmitted st sId qId :=
  mem_addIfTruthy_of_mem _ _ _ _ (mem_addIfTruthy_of_mem _ _ _ _ h)

/-- A candidate answering with a non-success status is recorded and skipped,
whatever its body looks like. -/
theorem probeLoop_skip_notOk (parse : String → Option Value)
    (rest : List FetchOutcome) (st : ProbeState) (status : Nat) (text : String)
    (h : respOk status = false) :
    ∃ e : ProbeErr, probeLoop parse none (FetchOutcome.resp status text :: rest) st =
      probeLoop parse none rest
        { st with lastError := some e,
                  requested := st.requested + 1, clock := st.clock + 2 } := by
  by_cases hm : looksLikeMarkup text
  · refine ⟨.httpErr status text, ?_⟩
    simp only [probeLoop, abortedAt, Bool.false_eq_true, if_false, hm, if_true]
  · cases hp : (if text = "" then some vnull else parse text) with
    | none =>
        refine ⟨.parseFailure status, ?_⟩
        simp only [probeLoop, abortedAt, Bool.false_eq_true, if_false, hm, hp]
    | some j =>
        refine ⟨.httpErr status text, ?_⟩
        simp [probeLoop, abortedAt, hm, hp, h]

/-- Whether a candidate outcome is a response whose body looks like a
markup / fallback page. -/
def isMarkupResp : FetchOutcome → Bool
  | .resp _ t => looksLikeMarkup t
  | .netError => false

/-- A run over candidates that all answer markup pages retrieves nothing
and requests every one of them. -/
theorem probeLoop_all_markup (parse : String → Option Value)
    (cands : List FetchOutcome) (st : ProbeState)
    (h : ∀ c ∈ cands, isMarkupResp c = true) :
    (probeLoop parse none cands st).got = st.got ∧
    (probeLoop parse none cands st).requested = st.requested + cands.length := by
  induction cands generalizing st with
  | nil => simp [probeLoop]
  | cons c rest ih =>
      have hc : isMarkupResp c = true := h c (by simp)
      have hrest : ∀ x ∈ rest, isMarkupResp x = true := fun x hx => h x (by simp [hx])
      cases c with
      | netError => simp [isMarkupResp] at hc
      | resp status text =>
          have hm : looksLikeMarkup text = true := hc
          simp only [probeLoop, abortedAt, Bool.false_eq_true, if_false, hm, if_true]
          obtain ⟨h1, h2⟩ := ih
            { st with lastError := some (.httpErr status text),
                      requested := st.requested + 1, clock := st.clock + 2 } hrest
          refine ⟨h1, ?_⟩
          rw [h2]
          simp only [List.length_cons]
          omega

theorem coalesce_self_of_ne (P b : Value) (h1 : P ≠ vundef) (h2 : P ≠ vnull) :
    coalesce P b = P := by
  cases P <;> simp_all [coalesce]

/-! ## The claims -/

/-- C4: for every pair of raw payloads that present the same logical
session using any supported combination of field aliases (id vs sessionId
vs session_id vs nested session.id, and likewise for quiz id, status,
times, pin, participants), `normalizeSession` produces the identical
canonical `Session` value (the seven-field record of the data model). -/
theorem normalizeSession_alias_invariant (c1 c2 : AliasChoice) (L : LogicalSession) :
    (normalizeSession (buildRaw c1 L)).map projectSession =
      (normalizeSession (buildRaw c2 L)).map projectSession := by
  rw [normalize_buildRaw_canonical, normalize_buildRaw_canonical]

/-- C5, counterexample to the claim as stated: `normalize({})` yields a
session whose `status` is the empty string, not `"unknown"`; and
`normalize(false)` yields `null` although `false` is a present (non-absent)
input, so `null` is not returned only on absent inputs. -/
theorem normalizeSession_empty_status_cex :
    (normalizeSession (vobj [])).map (fun v => v.getField "status") = some (vstr "") ∧
    vstr "" ≠ vstr "unknown" ∧
    normalizeSession (vbool false) = none ∧
    vbool false ≠ vnull ∧ vbool false ≠ vundef := by
  refine ⟨rfl, by simp, rfl, by simp, by simp⟩

/-- C5 (amended): `normalize(null)` and `normalize(undefined)` both return
`null`; `normalize({})` returns a Session whose canonical fields are all
`null`, with status the empty string and participants the empty list, and
never throws; `normalize` returns `null` exactly when the input is falsy
(absent, or a falsy primitive such as `false`, `0` or `""`). -/
theorem normalizeSession_absent_and_empty (raw : Value) :
    normalizeSession vnull = none ∧
    normalizeSession vundef = none ∧
    (normalizeSession (vobj [])).map projectSession =
      some { id := vnull, quizId := vnull, participants := varr [],
             status := vstr "", startsAt := vnull, endsAt := vnull, pin := vnull } ∧
    (normalizeSession raw = none ↔ raw.truthy = false) := by
  refine ⟨rfl, rfl, rfl, ?_⟩
  unfold normalizeSession
  by_cases h : raw.truthy <;> simp [h]

/-- C10: for every non-absent raw object, the normalized session preserves
every field whose key is not one of the seven canonical ones: the output
is the raw record merged with the canonical fields, so extra backend
fields pass through unchanged. -/
theorem normalizeSession_frame (fields : List (String × Value)) (k : String)
    (h : k ∉ ["id", "quizId", "participants", "status", "startsAt", "endsAt", "pin"]) :
    (normalizeSession (vobj fields)).map (fun v => v.getField k) =
      some ((vobj fields).getField k) := by
  unfold normalizeSession
  rw [if_neg (by simp [truthy])]
  simp only [Option.map_some', Option.some.injEq, getField_vobj, spreadFields]
  rw [findVal_objAssign _ _ _ (by simp), findVal_eq_none_of_not_mem]
  · simp
  · simpa using h

/-- C10 witness: a surplus backend field survives normalization. -/
theorem normalizeSession_frame_witness :
    (normalizeSession (vobj [("teacherName", vstr "t")])).map
        (fun v => v.getField "teacherName") =
      some ((vobj [("teacherName", vstr "t")]).getField "teacherName") :=
  normalizeSession_frame [("teacherName", vstr "t")] "teacherName" (by decide)

/-- C6: given candidates `[A, B, …]` where A answers with a 404 and B with
a valid JSON payload on a success status, the probe retrieves exactly B's
parsed payload and requests exactly two candidates — anything after B is
never fetched; iteration is in list order and stops at the first success. -/
theorem probe_first_success (parse : String → Option Value) (tA tB : String)
    (sB : Nat) (P : Value) (rest : List FetchOutcome)
    (hok : respOk sB = true) (hmk : looksLikeMarkup tB = false)
    (hne : tB ≠ "") (hparse : parse tB = some P)
    (hP1 : P ≠ vundef) (hP2 : P ≠ vnull) :
    (probeResult parse
        (FetchOutcome.resp 404 tA :: FetchOutcome.resp sB tB :: rest)).got = P ∧
    (probeResult parse
        (FetchOutcome.resp 404 tA :: FetchOutcome.resp sB tB :: rest)).requested = 2 := by
  unfold probeResult
  obtain ⟨e, he⟩ := probeLoop_skip_notOk parse (FetchOutcome.resp sB tB :: rest)
    { got := vnull, lastError := none, requested := 0, clock := 1 } 404 tA (by decide)
  rw [he]
  have hp' : (if tB = "" then some vnull else parse tB) = some P := by
    rw [if_neg hne, hparse]
  simp [probeLoop, abortedAt, hmk, hp', hok,
    coalesce_self_of_ne P vnull hP1 hP2]

/-- C6 witness: a 404 first candidate is skipped, the second's payload is
returned, nothing further is requested. -/
theorem probe_first_success_witness :
    (probeResult (fun t => if t = "payload" then some (vobj [("x", vnum 1)]) else none)
        (FetchOutcome.resp 404 "nope" :: FetchOutcome.resp 200 "payload" ::
          [FetchOutcome.resp 200 "other"])).got = vobj [("x", vnum 1)] ∧
    (probeResult (fun t => if t = "payload" then some (vobj [("x", vnum 1)]) else none)
        (FetchOutcome.resp 404 "nope" :: FetchOutcome.resp 200 "payload" ::
          [FetchOutcome.resp 200 "other"])).requested = 2 :=
  probe_first_success _ "nope" "payload" 200 (vobj [("x", vnum 1)])
    [FetchOutcome.resp 200 "other"] (by decide) (by decide) (by decide)
    (by simp) (by simp) (by simp)

/-- C7: when every candidate answers with a body that starts with a markup
delimiter (after trimming), the probe retrieves no payload — `got` stays
`null`, which is exactly the aggregate no-candidate-succeeded failure path
of the cycle — regardless of the HTTP statuses, 200 included, and all
candidates are exhausted. -/
theorem probe_all_markup_fails (parse : String → Option Value)
    (cands : List FetchOutcome) (h : ∀ c ∈ cands, isMarkupResp c = true) :
    (probeResult parse cands).got = vnull ∧
    (probeResult parse cands).requested = cands.length := by
  have hm := probeLoop_all_markup parse cands
    { got := vnull, lastError := none, requested := 0, clock := 1 } h
  simpa [probeResult] using hm

/-- C7 witness: two markup bodies, one of them under HTTP 200, retrieve
nothing. -/
theorem probe_all_markup_fails_witness :
    (probeResult (fun _ => none)
        [FetchOutcome.resp 200 "<html>", FetchOutcome.resp 404 " <div>"]).got = vnull ∧
    (probeResult (fun _ => none)
        [FetchOutcome.resp 200 "<html>", FetchOutcome.resp 404 " <div>"]).requested = 2 :=
  probe_all_markup_fails _ _ (by decide)

/-- C2: every state-setter call of one `tryFetchOnce` cycle is timestamped
before the cycle's cancellation instant: once `stop()` has run (setting
the `abort` flag at instant `t ≥ 1`, after the cycle's synchronous
prologue), no `setSession` (`onUpdate`) and no `setError` (`onError`)
call is made, even when a probe request that started before `stop()`
resolves afterwards. -/
theorem poller_no_callbacks_after_stop (parse : String → Option Value)
    (cands : List FetchOutcome) (t : Nat) (p : Nat × Emit) (ht : 1 ≤ t)
    (hp : p ∈ tryFetchOnceRun parse (some t) cands) : p.1 < t := by
  unfold tryFetchOnceRun at hp
  rcases List.mem_append.mp hp with h1 | h2
  · simp only [List.mem_cons, List.not_mem_nil, or_false] at h1
    rcases h1 with rfl | rfl <;> simpa using ht
  · by_cases hab : abortedAt (some t)
        (probeLoop parse (some t) cands
          { got := vnull, lastError := none, requested := 0, clock := 1 }).clock = true
    · rw [if_pos hab] at h2
      simp at h2
    · have hlt : (probeLoop parse (some t) cands
          { got := vnull, lastError := none, requested := 0, clock := 1 }).clock < t := by
        simp only [abortedAt, decide_eq_true_eq] at hab
        omega
      rw [if_neg hab] at h2
      by_cases hn : (probeLoop parse (some t) cands
          { got := vnull, lastError := none, requested := 0, clock := 1 }).got.isNullValue = true
      · rw [if_pos hn] at h2
        simp only [List.mem_cons, List.not_mem_nil, or_false] at h2
        rcases h2 with rfl | rfl <;> simpa using hlt
      · rw [if_neg hn] at h2
        simp only [List.mem_cons, List.not_mem_nil, or_false] at h2
        rcases h2 with rfl | rfl <;> simpa using hlt

/-- C2 witness: a cycle stopped at instant 1 emits only its prologue
calls, timestamped 0. -/
theorem poller_no_callbacks_after_stop_witness :
    1 ≤ 1 ∧ ((0 : Nat), Emit.eLoading true).1 < 1 := by
  refine ⟨by decide, ?_⟩
  have hmem : ((0 : Nat), Emit.eLoading true) ∈
      tryFetchOnceRun (fun _ => none) (some 1) [] := by
    simp [tryFetchOnceRun, probeLoop, abortedAt]
  exact poller_no_callbacks_after_stop (fun _ => none) [] 1 _ (by decide) hmem

/-- C1: a freshly mounted lobby fed the update sequence
`waiting, waiting, active, active, ended` (whatever else the five session
payloads carry) runs its activation side-effect — the async block that
calls `onSessionStarted` / fetches the quiz detail exactly once per run —
exactly once, on the first update whose normalized status is `active`;
the second `waiting` and the second `active` do not re-run the effect
(unchanged `session?.status` dependency), and `ended` runs it vacuously. -/
theorem getField_vnull (k : String) : getField vnull k = vundef := rfl

theorem objectIs_vstr (a b : String) : objectIs (vstr a) (vstr b) = (a == b) := rfl

theorem objectIs_vstr_vundef (a : String) : objectIs (vstr a) vundef = false := rfl

theorem lobby_activation_fires_once (s1 s2 s3 s4 s5 : Value)
    (h1 : s1.getField "status" = vstr "waiting") (t1 : s1.truthy = true)
    (h2 : s2.getField "status" = vstr "waiting") (t2 : s2.truthy = true)
    (h3 : s3.getField "status" = vstr "active") (t3 : s3.truthy = true)
    (h4 : s4.getField "status" = vstr "active") (t4 : s4.truthy = true)
    (h5 : s5.getField "status" = vstr "ended") (t5 : s5.truthy = true) :
    activationRun [s1, s2, s3, s4, s5] = [false, false, true, false, false] := by
  simp only [activationRun, activationFires, statusDep, effectFiresActivation,
    h1, h2, h3, h4, h5, t1, t2, t3, t4, t5, coalesce_vstr, jsToString,
    getField_vnull, objectIs_vstr, objectIs_vstr_vundef]
  decide

/-- C1 witness: the five-update scenario on concrete payloads. -/
theorem lobby_activation_fires_once_witness :
    activationRun [vobj [("status", vstr "waiting")], vobj [("status", vstr "waiting")],
      vobj [("status", vstr "active")], vobj [("status", vstr "active")],
      vobj [("status", vstr "ended")]] = [false, false, true, false, false] :=
  lobby_activation_fires_once _ _ _ _ _ rfl rfl rfl rfl rfl rfl rfl rfl rfl rfl

/-- C3: after `markSubmitted` records session `S1` and quiz `Q1` (both
non-empty), every later activation attempt whose extracted session id is
`S1` — any quiz id — or whose resolved quiz id is `Q1` — any session id —
returns without issuing the quiz-detail fetch. -/
theorem dedup_gates_activation (st0 : List String) (S1 Q1 : String)
    (joined : Option String) (tok : Option String) (s : Value)
    (hS : S1 ≠ "") (hQ : Q1 ≠ "") :
    (sessionIdOf s = vstr S1 →
      (handleSessionStarted (markSubmitted st0 (some S1) (some Q1))
        joined tok s).issuesFetch = false) ∧
    (quizIdToUse joined s = vstr Q1 →
      (handleSessionStarted (markSubmitted st0 (some S1) (some Q1))
        joined tok s).issuesFetch = false) := by
  have hmem_s : ("s:" ++ S1) ∈ markSubmitted st0 (some S1) (some Q1) := by
    simp only [markSubmitted, addIfTruthy]
    rw [if_pos hQ, if_pos hS]
    exact mem_addKey_of_mem _ _ _ (mem_addKey_self _ _)
  have hmem_q : ("q:" ++ Q1) ∈ markSubmitted st0 (some S1) (some Q1) := by
    simp only [markSubmitted, addIfTruthy]
    rw [if_pos hQ]
    exact mem_addKey_self _ _
  constructor
  · intro hid
    unfold handleSessionStarted
    rw [if_pos ?hc]
    case hc =>
      rw [hid]
      exact ⟨by simpa [truthy] using hS, by simpa [jsToString] using hmem_s⟩
    rfl
  · intro hq
    unfold handleSessionStarted
    by_cases hfirst : (sessionIdOf s).truthy = true ∧
        ("s:" ++ jsToString (sessionIdOf s)) ∈ markSubmitted st0 (some S1) (some Q1)
    · rw [if_pos hfirst]
      rfl
    · rw [if_neg hfirst, if_pos ?hc]
      case hc =>
        rw [hq]
        exact ⟨by simpa [truthy] using hQ, by simpa [jsToString] using hmem_q⟩
      rfl

/-- C3 witness: a concrete replayed activation for an already-submitted
session short-circuits before any fetch. -/
theorem dedup_gates_activation_witness :
    (handleSessionStarted (markSubmitted [] (some "S1") (some "Q1"))
      none (some "tok") (vobj [("id", vstr "S1")])).issuesFetch = false :=
  (dedup_gates_activation [] "S1" "Q1" none (some "tok") (vobj [("id", vstr "S1")])
    (by decide) (by decide)).1 rfl

/-- C8: the activation gate's quiz-id resolution always prefers the quiz
id obtained from the join operation over one embedded in the polled
session payload; only when the join-supplied id is absent does the
payload's id win. -/
theorem joined_quiz_id_preferred (j : String) (s : Value) (q' : Value)
    (h : s.getField "quizId" = q') (h1 : q' ≠ vundef) (h2 : q' ≠ vnull) :
    quizIdToUse (some j) s = vstr j ∧ quizIdToUse none s = q' := by
  refine ⟨rfl, ?_⟩
  simp [quizIdToUse, h, coalesce_self_of_ne q' _ h1 h2]

/-- C8 witness: a joined id `J1` wins over an embedded `Q9`; without a
joined id the embedded `Q9` is used. -/
theorem joined_quiz_id_preferred_witness :
    quizIdToUse (some "J1") (vobj [("quizId", vstr "Q9")]) = vstr "J1" ∧
    quizIdToUse none (vobj [("quizId", vstr "Q9")]) = vstr "Q9" :=
  joined_quiz_id_preferred "J1" (vobj [("quizId", vstr "Q9")]) (vstr "Q9")
    rfl (by simp) (by simp)

/-- C9: the dedup set is append-only and monotonic: whatever sequence of
`markSubmitted` / `has` operations runs after a key is a member (keys
loaded at start included), the key is still a member at the end — no
operation removes it — and every full serialization persisted after an
add still contains it. -/
theorem dedup_set_monotone (st : List String) (ops : List TrackerOp)
    (k : String) (w : List String) (h : k ∈ st) :
    k ∈ runOps st ops ∧ (w ∈ persistedWrites st ops → k ∈ w) := by
  induction ops generalizing st with
  | nil => exact ⟨h, by simp [persistedWrites]⟩
  | cons op rest ih =>
      cases op with
      | addOp s q =>
          have h' := mem_markSubmitted_of_mem st s q k h
          obtain ⟨ha, hb⟩ := ih (markSubmitted st s q) h'
          refine ⟨by simpa [runOps, runOp] using ha, ?_⟩
          intro hw
          simp only [persistedWrites, List.mem_cons] at hw
          rcases hw with rfl | hw
          · exact h'
          · exact hb hw
      | hasOp kk =>
          obtain ⟨ha, hb⟩ := ih st h
          refine ⟨by simpa [runOps, runOp] using ha, ?_⟩
          intro hw
          exact hb (by simpa [persistedWrites] using hw)

/-- C9 witness: a loaded key survives an add and a lookup, and sits in the
serialization written by the add. -/
theorem dedup_set_monotone_witness :
    "s:A" ∈ runOps ["s:A"]
        [TrackerOp.addOp (some "B") (some "C"), TrackerOp.hasOp "z"] ∧
    (["s:A", "s:B", "q:C"] ∈ persistedWrites ["s:A"]
        [TrackerOp.addOp (some "B") (some "C"), TrackerOp.hasOp "z"] →
      "s:A" ∈ ["s:A", "s:B", "q:C"]) :=
  dedup_set_monotone ["s:A"]
    [TrackerOp.addOp (some "B") (some "C"), TrackerOp.hasOp "z"]
    "s:A" ["s:A", "s:B", "q:C"] (by decide)
